import Mathlib

/-!
Verification development for the searchv2 interview-pipeline orchestration
core.  The definitions below are shallow embeddings of the Python source:

* `MessageBroker` (src/searchv2/tools/human_input_tool.py, lines 9-33):
  a class-level singleton holding a message list, a current question and a
  threading `Event`.
* `HumanInputTool._run` (same file, lines 76-100): the interactive stage.
* `SessionManager` (src/searchv2/session.py): the session registry.
* `run_crew_process` (src/searchv2/main.py, lines 100-201): the retry loop
  around the crew invocation.

Mutable shared state (the broker singleton, the heap of broker objects and
the registry dictionary) is modelled by explicit state passing over a
`World` record; blocking `get_message` is modelled both as a partial pop
(returning `none` where the Python call would block) and, for the temporal
claim, as a small labelled transition system over the consumer's program
counter.  Python floats (delays, jitter) are modelled as rationals.
-/

/-- State of one `MessageBroker` object: the `messages` list, the
`current_question` field and the `new_message_event` flag
(`Event.is_set`). -/
structure BrokerState where
  messages : List String
  currentQuestion : Option String
  eventSet : Bool
deriving DecidableEq, Repr

/-- A freshly constructed broker: empty list, no question, event unset. -/
def BrokerState.init : BrokerState := ⟨[], none, false⟩

/-- Model of `MessageBroker.add_message`: append to the queue and set the event. -/
def add_message (b : BrokerState) (m : String) : BrokerState :=
  ⟨b.messages ++ [m], b.currentQuestion, true⟩

/-- Model of `MessageBroker.get_message`, restricted to the non-blocking outcome:
if the queue is non-empty the while-loop body never runs and
`messages.pop(0)` removes and returns the head; on an empty queue the call
blocks, modelled as `none`. -/
def get_message (b : BrokerState) : Option (String × BrokerState) :=
  match b.messages with
  | [] => none
  | m :: rest => some (m, ⟨rest, b.currentQuestion, b.eventSet⟩)

/-- Model of `MessageBroker.set_question`: overwrite the current question. -/
def set_question (b : BrokerState) (q : String) : BrokerState :=
  { b with currentQuestion := some q }

/-- Model of `MessageBroker.get_question`: read the current question. -/
def get_question (b : BrokerState) : Option String :=
  b.currentQuestion

/-- A sequence of `add_message` calls, in order. -/
def addAll (b : BrokerState) (ms : List String) : BrokerState :=
  ms.foldl add_message b

/-- Iterated `get_message`: `n` successive calls; `none` if any of them would
block. -/
def drain : BrokerState → Nat → Option (List String × BrokerState)
  | b, 0 => some ([], b)
  | b, n + 1 =>
    match get_message b with
    | none => none
    | some (m, b') => (drain b' n).map (fun p => (m :: p.1, p.2))

lemma addAll_spec (ms : List String) :
    ∀ (l : List String) (cq : Option String) (ev : Bool),
      addAll ⟨l, cq, ev⟩ ms = ⟨l ++ ms, cq, ev || !ms.isEmpty⟩ := by
  induction ms with
  | nil => intro l cq ev; simp [addAll]
  | cons m ms ih =>
    intro l cq ev
    have h1 : addAll ⟨l, cq, ev⟩ (m :: ms) = addAll ⟨l ++ [m], cq, true⟩ ms := rfl
    rw [h1, ih]
    simp

lemma drain_all (ms : List String) :
    ∀ (cq : Option String) (ev : Bool),
      drain ⟨ms, cq, ev⟩ ms.length = some (ms, ⟨[], cq, ev⟩) := by
  induction ms with
  | nil => intro cq ev; rfl
  | cons m ms ih =>
    intro cq ev
    simp [drain, get_message, ih]

/-- C6: messages are delivered in insertion order.  Starting from a broker
with an empty queue, after `add_message m1, …, add_message mn`, the `n`
subsequent `get_message` calls return exactly `m1, …, mn` in that order
(and none of them blocks); moreover `add_message` always appends at the
tail, so the queue preserves insertion order in general. -/
theorem broker_fifo_order (cq : Option String) (ev : Bool) (ms : List String) :
    drain (addAll ⟨[], cq, ev⟩ ms) ms.length
      = some (ms, ⟨[], cq, ev || !ms.isEmpty⟩)
    ∧ ∀ b : BrokerState, (addAll b ms).messages = b.messages ++ ms := by
  constructor
  · rw [addAll_spec]
    simpa using drain_all ms cq (ev || !ms.isEmpty)
  · intro b
    cases b with
    | mk l q e => rw [addAll_spec]

/-! ## The interactive stage: `HumanInputTool._run` -/

/-- Python whitespace characters stripped by `str.strip()` (ASCII
fragment: space, tab, newline, carriage return, vertical tab, form
feed). -/
def isPySpace (c : Char) : Bool :=
  c = ' ' || c = '\t' || c = '\n' || c = '\r' ||
  c = Char.ofNat 11 || c = Char.ofNat 12

/-- Python `str.strip()`: drop leading and trailing whitespace. -/
def pyStrip (s : String) : String :=
  String.mk (((s.data.dropWhile isPySpace).reverse.dropWhile isPySpace).reverse)

/-- Model of `HumanInputTool._validate_response`: returns `response.strip()` (and
stores it as the last response). -/
def validate_response (response : String) : String :=
  pyStrip response

/-- The hard-coded greeting used by `HumanInputTool._run` on the first
call of the process. -/
def greeting : String :=
  "Hello! I'm your MedicalAI Assistant.\n" ++
  "I'm here to help collect and organize details about your symptoms so your doctor can better understand what you're experiencing.\n" ++
  "I'll ask you a few questions — just answer in your own words, and I'll take care of the rest.\n" ++
  "To begin, could you please tell me what symptoms you're experiencing today?"

/-- Class-level state of `HumanInputTool`: the `_first_call` flag and the
transcript of `(question, answer)` interactions written by
`_save_interaction`. -/
structure ToolState where
  firstCall : Bool
  log : List (String × String)
deriving DecidableEq, Repr

/-- Model of `HumanInputTool._run question`: when `_first_call` is set the tool
skips `set_question`, clears the flag, blocks for a message, and logs the
built-in greeting; otherwise it first calls `set_question question`, then
blocks for a message and logs `question`.  The answer returned (and
logged) is the validated (stripped) message.  `none` models the case
where `get_message` blocks forever because no message ever arrives. -/
def humanInputRun (ts : ToolState) (b : BrokerState) (question : String) :
    Option (String × ToolState × BrokerState) :=
  let b1 := if ts.firstCall then b else set_question b question
  match get_message b1 with
  | none => none
  | some (m, b2) =>
    let answer := validate_response m
    let usedQ := if ts.firstCall then greeting else question
    some (answer, ⟨false, ts.log ++ [(usedQ, answer)]⟩, b2)

/-- C2 (code evaluation): on the very first invocation the tool does NOT
post its question to the broker — the current question stays `none` and
the transcript records the built-in greeting instead of the generated
question — contradicting the claim that every interactive invocation
first calls `set_question`. -/
theorem first_invocation_skips_set_question :
    humanInputRun ⟨true, []⟩ ⟨["I have a headache"], none, false⟩
        "What symptoms do you have?"
      = some ("I have a headache",
              ⟨false, [(greeting, "I have a headache")]⟩,
              ⟨[], none, false⟩)
    ∧ (humanInputRun ⟨false, []⟩ ⟨["ans"], none, false⟩ "Q2"
      = some ("ans", ⟨false, [("Q2", "ans")]⟩, ⟨[], some "Q2", false⟩)) := by
  constructor
  · rfl
  · rfl

/-- C10: for every delivered message `m`, the value the interactive stage
returns (and records in the transcript as the answer) is `m` stripped of
leading and trailing whitespace — and stripping is not the identity, so
the output is not `m` verbatim in general. -/
theorem stage_output_is_stripped (fc : Bool) (log : List (String × String))
    (q m : String) (rest : List String) (cq : Option String) (ev : Bool) :
    humanInputRun ⟨fc, log⟩ ⟨m :: rest, cq, ev⟩ q
      = some (pyStrip m,
              ⟨false, log ++ [((if fc then greeting else q), pyStrip m)]⟩,
              ⟨rest, (if fc then cq else some q), ev⟩)
    ∧ pyStrip "  yes  " ≠ "  yes  " := by
  constructor
  · cases fc <;> rfl
  · decide

/-! ## The session registry and the broker singleton -/

/-- Association-list get, modelling Python `dict.get`. -/
def alGet {α β : Type} [DecidableEq α] : List (α × β) → α → Option β
  | [], _ => none
  | (k, v) :: t, k1 => if k = k1 then some v else alGet t k1

/-- Remove every binding of a key (dictionaries hold at most one). -/
def alRemove {α β : Type} [DecidableEq α] : List (α × β) → α → List (α × β)
  | [], _ => []
  | (k, v) :: t, k1 => if k = k1 then alRemove t k1 else (k, v) :: alRemove t k1

/-- Association-list set, modelling Python `dict[k] = v`. -/
def alSet {α β : Type} [DecidableEq α] (l : List (α × β)) (k : α) (v : β) :
    List (α × β) :=
  (k, v) :: alRemove l k

lemma alGet_alSet_self {α β : Type} [DecidableEq α]
    (l : List (α × β)) (k : α) (v : β) : alGet (alSet l k v) k = some v := by
  simp [alSet, alGet]

lemma alGet_alRemove_self {α β : Type} [DecidableEq α]
    (l : List (α × β)) (k : α) : alGet (alRemove l k) k = none := by
  induction l with
  | nil => rfl
  | cons p t ih =>
    cases p with
    | mk k0 v0 =>
      by_cases h : k0 = k
      · simp [alRemove, h, ih]
      · simp [alRemove, alGet, h, ih]

lemma alRemove_of_alGet_none {α β : Type} [DecidableEq α]
    (l : List (α × β)) (k : α) (h : alGet l k = none) : alRemove l k = l := by
  induction l with
  | nil => rfl
  | cons p t ih =>
    cases p with
    | mk k0 v0 =>
      by_cases hk : k0 = k
      · simp [alGet, hk] at h
      · simp [alGet, hk] at h
        simp [alRemove, hk, ih h]

/-- A `Session` dataclass (src/searchv2/session.py): identity of the
Python object (`sid`, fresh per construction), the reference to its
`MessageBroker`, and the optional `log_file` path.  The worker handles are
irrelevant to the claims and omitted. -/
structure Session where
  sid : Nat
  brokerId : Nat
  logFile : Option String
deriving DecidableEq, Repr

/-- Global program state: `MessageBroker._instance` (the class-level
singleton reference), the heap of allocated broker objects,
`SessionManager._sessions`, an allocation counter, the set of existing
files and the set of files whose `unlink` raises. -/
structure World where
  brokerInstance : Option Nat
  heap : List (Nat × BrokerState)
  nextId : Nat
  sessions : List (String × Session)
  files : List String
  failing : List String
deriving DecidableEq, Repr

/-- The empty initial world of a fresh process. -/
def World.init : World := ⟨none, [], 0, [], [], []⟩

/-- Model of `MessageBroker()` / `MessageBroker.__new__`: if `_instance` is unset,
allocate a fresh broker object and store it in `_instance`; in every
subsequent call return the very same object. -/
def mkBroker (w : World) : Nat × World :=
  match w.brokerInstance with
  | some i => (i, w)
  | none =>
    (w.nextId,
     { w with brokerInstance := some w.nextId,
              heap := alSet w.heap w.nextId BrokerState.init,
              nextId := w.nextId + 1 })

/-- Model of `SessionManager.get_session` (the spec's `get_or_create`): under the
class lock, look the id up; if absent, construct
`Session(broker=MessageBroker())` and store it. -/
def get_session (w : World) (id : String) : Session × World :=
  match alGet w.sessions id with
  | some s => (s, w)
  | none =>
    let bw := mkBroker w
    let s : Session := ⟨bw.2.nextId, bw.1, none⟩
    (s, { bw.2 with nextId := bw.2.nextId + 1,
                    sessions := alSet bw.2.sessions id s })

/-- Model of `session.log_file.unlink()`: fails on the paths in `failing`. -/
def unlink (w : World) (p : String) : Except Unit World :=
  if p ∈ w.failing then Except.error ()
  else Except.ok { w with files := w.files.erase p }

/-- Model of `SessionManager.cleanup_session`: pop the registry entry under the
lock; then, if a session was found and its `log_file` exists, try to
unlink it, swallowing any exception. -/
def cleanup_session (w : World) (id : String) : World :=
  match alGet w.sessions id with
  | none => { w with sessions := alRemove w.sessions id }
  | some s =>
    let w1 := { w with sessions := alRemove w.sessions id }
    match s.logFile with
    | none => w1
    | some p =>
      if p ∈ w1.files then
        match unlink w1 p with
        | Except.ok w2 => w2
        | Except.error _ => w1
      else w1

/-- Model of `session.broker.add_message m` as performed by the `/chat` handler:
mutate the broker object on the heap. -/
def brokerAddMsg (w : World) (bid : Nat) (m : String) : World :=
  match alGet w.heap bid with
  | none => w
  | some b => { w with heap := alSet w.heap bid (add_message b m) }

/-- C8: `get_or_create` is idempotent — a second `get_session` with the
same id (no intervening cleanup) returns the very same `Session` object
and leaves the world unchanged, so no duplicate session is ever created.
Since the whole body runs under `SessionManager._lock`, each call is
atomic and concurrent calls serialize to exactly this sequential
composition. -/
theorem get_session_idempotent (w : World) (id : String) :
    get_session (get_session w id).2 id = get_session w id := by
  cases h : alGet w.sessions id with
  | some s => simp [get_session, h]
  | none =>
    cases hb : w.brokerInstance with
    | some i =>
      simp [get_session, h, mkBroker, hb, alGet_alSet_self]
    | none =>
      simp [get_session, h, mkBroker, hb, alGet_alSet_self]

lemma cleanup_session_of_absent (w : World) (id : String)
    (h : alGet w.sessions id = none) :
    cleanup_session w id = { w with sessions := alRemove w.sessions id } := by
  simp only [cleanup_session, h]

/-- C9: `cleanup_session` removes the registry entry (at most once): after
one cleanup the id is gone, and a second cleanup with no intervening
creation changes nothing; when the session's transcript-log file is
present it is released — a successful unlink deletes exactly that file —
and when the unlink raises, the error is swallowed: the session is still
removed and the file system is left as it was, with no exception
escaping (the function is total). -/
theorem cleanup_session_spec (w : World) (id : String) :
    alGet (cleanup_session w id).sessions id = none
    ∧ cleanup_session (cleanup_session w id) id = cleanup_session w id
    ∧ (∀ s p, alGet w.sessions id = some s → s.logFile = some p →
        p ∈ w.files → p ∉ w.failing →
        (cleanup_session w id).files = w.files.erase p)
    ∧ (∀ s p, alGet w.sessions id = some s → s.logFile = some p →
        p ∈ w.files → p ∈ w.failing →
        (cleanup_session w id).files = w.files) := by
  have hsess : (cleanup_session w id).sessions = alRemove w.sessions id := by
    cases h : alGet w.sessions id with
    | none => simp [cleanup_session, h]
    | some s =>
      cases hl : s.logFile with
      | none => simp [cleanup_session, h, hl]
      | some p =>
        by_cases hf : p ∈ w.files
        · by_cases hfail : p ∈ w.failing
          · simp [cleanup_session, h, hl, hf, unlink, hfail]
          · simp [cleanup_session, h, hl, hf, unlink, hfail]
        · simp [cleanup_session, h, hl, hf]
  have hnone : alGet (cleanup_session w id).sessions id = none := by
    rw [hsess]; exact alGet_alRemove_self w.sessions id
  refine ⟨hnone, ?_, ?_, ?_⟩
  · rw [cleanup_session_of_absent _ _ hnone, alRemove_of_alGet_none _ _ hnone]
  · intro s p hs hl hf hfail
    simp [cleanup_session, hs, hl, hf, unlink, hfail]
  · intro s p hs hl hf hfail
    simp [cleanup_session, hs, hl, hf, unlink, hfail]

/-- A world with one registered session whose log file exists and whose
unlink raises; used to witness the error-swallowing branch of C9. -/
def failingLogWorld : World :=
  ⟨none, [], 1, [("a", ⟨0, 0, some "log"⟩)], ["log"], ["log"]⟩

/-- A world with one registered session whose log file exists and whose
unlink succeeds; used to witness the release branch of C9. -/
def okLogWorld : World :=
  ⟨none, [], 1, [("a", ⟨0, 0, some "log"⟩)], ["log"], []⟩

theorem cleanup_session_spec_witness :
    (cleanup_session okLogWorld "a").files = okLogWorld.files.erase "log"
    ∧ (cleanup_session failingLogWorld "a").files = failingLogWorld.files :=
  ⟨(cleanup_session_spec okLogWorld "a").2.2.1 ⟨0, 0, some "log"⟩ "log"
      (by decide) (by decide) (by decide) (by decide),
   (cleanup_session_spec failingLogWorld "a").2.2.2 ⟨0, 0, some "log"⟩ "log"
      (by decide) (by decide) (by decide) (by decide)⟩

/-- C1 (code evaluation): the broker is a process-wide singleton, not
per-session.  Starting from a fresh process: sessions "a" and "b" receive
the same broker object; after a message is queued and session "a" is
cleaned up, a new `get_session "a"` yields a fresh `Session` object whose
broker is again the same singleton, still holding the earlier message —
so its queue is not empty and state leaks across cleanup, contradicting
the claim. -/
theorem broker_is_shared_singleton :
    ((get_session (get_session World.init "a").2 "b").1).brokerId
      = ((get_session World.init "a").1).brokerId
    ∧ (let sA := (get_session World.init "a").1
       let w2 := (get_session (get_session World.init "a").2 "b").2
       let w3 := brokerAddMsg w2 sA.brokerId "leftover"
       let w4 := cleanup_session w3 "a"
       let r5 := get_session w4 "a"
       r5.1.brokerId = sA.brokerId ∧ r5.1.sid ≠ sA.sid ∧
       alGet r5.2.heap r5.1.brokerId = some ⟨["leftover"], none, true⟩) := by
  constructor
  · decide
  · refine ⟨by decide, by decide, by decide⟩

/-! ## The resilient retry loop: `run_crew_process` (src/searchv2/main.py) -/

/-- Substring test on character lists, modelling Python `in` on strings:
does the first list occur contiguously in the second? -/
def startsWithL : List Char → List Char → Bool
  | [], _ => true
  | _ :: _, [] => false
  | a :: as, b :: bs => a == b && startsWithL as bs

def containsSub (needle : List Char) : List Char → Bool
  | [] => needle.isEmpty
  | h :: t => startsWithL needle (h :: t) || containsSub needle t

/-- Model of `is_vertex_ai_overload` (main.py, lines 70-78).  The `json.loads` of
the part after the exception marker, together with the
`.get("error", {}).get("code")` chain, is modelled by the external
function `jsonErrCode` (returning `none` whenever Python would raise, in
which case the bare `except` yields `False`). -/
def is_vertex_ai_overload (jsonErrCode : String → Option Int) (msg : String) :
    Bool :=
  if containsSub "VertexAIException".data msg.data then
    match msg.splitOn "VertexAIException - " with
    | _ :: part :: _ => jsonErrCode part == some 503
    | _ => false
  else false

/-- The rate-limit signature test of the retry loop (main.py, line 186):
any of the markers occurring in the lower-cased error message
(`error_message.lower()`, ASCII case folding). -/
def isRateLimitMsg (msg : String) : Bool :=
  let low := msg.data.map Char.toLower
  containsSub "429".data low ||
  containsSub "rate limit".data low ||
  containsSub "too many requests".data low

/-- The retry configuration hard-coded in `run_crew_process` (lines
130-133): `max_retries`, `base_delay`, `max_delay` and the jitter
fraction. -/
structure RetryCfg where
  maxRetries : Nat
  baseDelay : ℚ
  maxDelay : ℚ
  jitter : ℚ
deriving DecidableEq, Repr

/-- The values used for VertexAI: 8 retries, 15 s base, 120 s cap, 20 %
jitter. -/
def vertexCfg : RetryCfg := ⟨8, 15, 120, 1/5⟩

/-- The backoff slept before retry number `attempt + 1` (lines 177 and
188): `min(base_delay * 2**attempt * (1 + jitter * (2*random() - 1)),
max_delay)`, with `r` the value drawn by `random.random()`. -/
def retryDelay (cfg : RetryCfg) (attempt : Nat) (r : ℚ) : ℚ :=
  min (cfg.baseDelay * 2 ^ attempt * (1 + cfg.jitter * (2 * r - 1)))
    cfg.maxDelay

/-- Outcome of one `crew.kickoff()` attempt: a result string, or a raised
exception rendered as its message `str(e)`. -/
inductive CrewResult where
  | ok : String → CrewResult
  | err : String → CrewResult
deriving DecidableEq, Repr

/-- Observable behaviour of one `run_crew_process` call: how many
attempts ran, which retry delays were slept (in order), and the returned
value (`none` when the loop breaks and the function falls through,
returning Python `None`). -/
structure RunTrace where
  attempts : Nat
  sleeps : List ℚ
  result : Option String
deriving DecidableEq, Repr

/-- The `for attempt in range(max_retries + 1)` loop of
`run_crew_process` (lines 136-199): `beh n` is the outcome of the
`n`-th `crew.kickoff()` attempt and `rand n` the `random.random()` draw
used by the delay for that attempt.  A successful attempt returns its
result; a failing one is retried after `retryDelay` only when its message
carries the overload or rate-limit signature and attempts remain,
otherwise the loop breaks and the function returns `None`. -/
def crewLoop (cfg : RetryCfg) (jsonErrCode : String → Option Int)
    (beh : Nat → CrewResult) (rand : Nat → ℚ) :
    Nat → Nat → List ℚ → RunTrace
  | attempt, 0, sleeps => ⟨attempt, sleeps, none⟩
  | attempt, fuel + 1, sleeps =>
    match beh attempt with
    | CrewResult.ok s => ⟨attempt + 1, sleeps, some s⟩
    | CrewResult.err m =>
      if is_vertex_ai_overload jsonErrCode m then
        if attempt < cfg.maxRetries then
          crewLoop cfg jsonErrCode beh rand (attempt + 1) fuel
            (sleeps ++ [retryDelay cfg attempt (rand attempt)])
        else ⟨attempt + 1, sleeps, none⟩
      else if isRateLimitMsg m then
        if attempt < cfg.maxRetries then
          crewLoop cfg jsonErrCode beh rand (attempt + 1) fuel
            (sleeps ++ [retryDelay cfg attempt (rand attempt)])
        else ⟨attempt + 1, sleeps, none⟩
      else ⟨attempt + 1, sleeps, none⟩

/-- Model of `run_crew_process`, as observed through its attempts, sleeps and
return value. -/
def run_crew_process (cfg : RetryCfg) (jsonErrCode : String → Option Int)
    (beh : Nat → CrewResult) (rand : Nat → ℚ) : RunTrace :=
  crewLoop cfg jsonErrCode beh rand 0 (cfg.maxRetries + 1) []

lemma crewLoop_transient_then_ok (cfg : RetryCfg)
    (jsonErrCode : String → Option Int) (beh : Nat → CrewResult)
    (rand : Nat → ℚ) (s : String) :
    ∀ (K a fuel : Nat) (sleeps : List ℚ),
      (∀ j, j < K → ∃ m, beh (a + j) = CrewResult.err m ∧
        (is_vertex_ai_overload jsonErrCode m || isRateLimitMsg m) = true) →
      beh (a + K) = CrewResult.ok s →
      a + K ≤ cfg.maxRetries →
      K < fuel →
      crewLoop cfg jsonErrCode beh rand a fuel sleeps
        = ⟨a + K + 1,
           sleeps ++ (List.range K).map
             (fun j => retryDelay cfg (a + j) (rand (a + j))),
           some s⟩ := by
  intro K
  induction K with
  | zero =>
    intro a fuel sleeps _ hok _ hfuel
    match fuel, hfuel with
    | fuel + 1, _ =>
      simp only [Nat.add_zero] at hok
      simp [crewLoop, hok]
  | succ K ih =>
    intro a fuel sleeps htr hok hle hfuel
    match fuel, hfuel with
    | fuel + 1, hfuel =>
      obtain ⟨m0, hm0, htrans0⟩ := htr 0 (Nat.succ_pos K)
      simp only [Nat.add_zero] at hm0
      have ha : a < cfg.maxRetries := by omega
      have hrec : crewLoop cfg jsonErrCode beh rand (a + 1) fuel
          (sleeps ++ [retryDelay cfg a (rand a)])
          = ⟨a + 1 + K + 1,
             (sleeps ++ [retryDelay cfg a (rand a)]) ++ (List.range K).map
               (fun j => retryDelay cfg (a + 1 + j) (rand (a + 1 + j))),
             some s⟩ := by
        apply ih
        · intro j hj
          have h := htr (j + 1) (by omega)
          rwa [show a + (j + 1) = a + 1 + j by omega] at h
        · rwa [show a + 1 + K = a + (K + 1) by omega]
        · omega
        · omega
      have hbody : crewLoop cfg jsonErrCode beh rand a (fuel + 1) sleeps
          = crewLoop cfg jsonErrCode beh rand (a + 1) fuel
              (sleeps ++ [retryDelay cfg a (rand a)]) := by
        rcases Bool.or_eq_true_iff.mp htrans0 with hov | hrl
        · simp [crewLoop, hm0, hov, ha]
        · cases hov : is_vertex_ai_overload jsonErrCode m0 <;>
            simp [crewLoop, hm0, hov, hrl, ha]
      have hrange : (List.range (K + 1)).map
            (fun j => retryDelay cfg (a + j) (rand (a + j)))
          = retryDelay cfg a (rand a) :: (List.range K).map
              (fun j => retryDelay cfg (a + 1 + j) (rand (a + 1 + j))) := by
        rw [List.range_succ_eq_map, List.map_cons, List.map_map]
        simp only [Nat.add_zero]
        congr 1
        apply List.map_congr_left
        intro j _
        simp only [Function.comp_apply, Nat.succ_eq_add_one]
        have hj : a + (j + 1) = a + 1 + j := by omega
        rw [hj]
      rw [hbody, hrec, hrange]
      simp only [RunTrace.mk.injEq, List.append_assoc, List.singleton_append]
      exact ⟨by omega, trivial, trivial⟩

/-- C5: for a collaborator that fails with a transient signature
(overload or rate-limit) on its first `K` attempts (`K` below the
attempt bound) and succeeds on attempt `K`, the loop performs exactly
`K + 1` attempts, sleeps before each retry exactly
`min(base_delay * 2^attempt * (1 + jitter*(2*rand-1)), max_delay)`
(that is, `base_delay * 2^attempt * (1 ± jitter)` capped at `max_delay`),
and returns the successful result. -/
theorem transient_retry_backoff (cfg : RetryCfg)
    (jsonErrCode : String → Option Int) (beh : Nat → CrewResult)
    (rand : Nat → ℚ) (K : Nat) (s : String)
    (htr : ∀ j, j < K → ∃ m, beh j = CrewResult.err m ∧
      (is_vertex_ai_overload jsonErrCode m || isRateLimitMsg m) = true)
    (hok : beh K = CrewResult.ok s)
    (hle : K ≤ cfg.maxRetries) :
    run_crew_process cfg jsonErrCode beh rand
      = ⟨K + 1, (List.range K).map (fun j => retryDelay cfg j (rand j)),
         some s⟩
    ∧ ∀ (j : Nat) (r : ℚ), retryDelay cfg j r
        = min (cfg.baseDelay * 2 ^ j * (1 + cfg.jitter * (2 * r - 1)))
            cfg.maxDelay := by
  constructor
  · have h := crewLoop_transient_then_ok cfg jsonErrCode beh rand s K 0
      (cfg.maxRetries + 1) []
      (by intro j hj; simpa using htr j hj)
      (by simpa using hok) (by omega) (by omega)
    simpa [run_crew_process] using h
  · intro j r
    rfl

/-- The collaborator behaviour of the C5 witness: two transient failures,
then success. -/
def twoRateLimitsBeh : Nat → CrewResult := fun n =>
  if n < 2 then CrewResult.err "HTTP 429 rate limit from upstream"
  else CrewResult.ok "interview report"

theorem transient_retry_backoff_witness :
    run_crew_process vertexCfg (fun _ => none) twoRateLimitsBeh
        (fun _ => 1/2)
      = ⟨3, [15, 30], some "interview report"⟩ := by
  have h := (transient_retry_backoff vertexCfg (fun _ => none)
    twoRateLimitsBeh (fun _ => 1/2) 2 "interview report"
    (by
      intro j hj
      refine ⟨"HTTP 429 rate limit from upstream", ?_, ?_⟩
      · simp [twoRateLimitsBeh, hj]
      · decide)
    (by decide) (by decide)).1
  rw [h]
  norm_num [RunTrace.mk.injEq, List.range_succ, retryDelay, vertexCfg, min_def]

/-- C3 counterexample: for a collaborator that always fails fatally
(message without overload or rate-limit signature), the loop performs
one attempt and falls through returning Python `None` — no fallback
string of any kind is produced, contradicting the claim that a
role-specific fallback string is returned. -/
theorem fatal_failure_no_fallback_string :
    run_crew_process vertexCfg (fun _ => none)
        (fun _ => CrewResult.err "boom") (fun _ => 0)
      = ⟨1, [], none⟩ := by
  decide

/-- C3 (amended): on a fatal (non-transient) first failure exactly one
attempt occurs, no retry delay is slept, and the wrapper swallows the
exception and returns no result (`None`) — rather than a role-specific
fallback string. -/
theorem fatal_failure_single_attempt (cfg : RetryCfg)
    (jsonErrCode : String → Option Int) (beh : Nat → CrewResult)
    (rand : Nat → ℚ) (msg : String)
    (h0 : beh 0 = CrewResult.err msg)
    (hov : is_vertex_ai_overload jsonErrCode msg = false)
    (hrl : isRateLimitMsg msg = false) :
    run_crew_process cfg jsonErrCode beh rand = ⟨1, [], none⟩ := by
  simp [run_crew_process, crewLoop, h0, hov, hrl]

theorem fatal_failure_single_attempt_witness :
    run_crew_process vertexCfg (fun _ => none)
        (fun _ => CrewResult.err "ValueError: bad config") (fun _ => 0)
      = ⟨1, [], none⟩ :=
  fatal_failure_single_attempt vertexCfg (fun _ => none)
    (fun _ => CrewResult.err "ValueError: bad config") (fun _ => 0)
    "ValueError: bad config" rfl (by decide) (by decide)

/-- C4 counterexample: an empty-string result is NOT treated like an
exception — the loop returns it as the output of its single successful
attempt instead of classifying and retrying it. -/
theorem empty_result_is_returned :
    run_crew_process vertexCfg (fun _ => none)
        (fun _ => CrewResult.ok "") (fun _ => 0)
      = ⟨1, [], some ""⟩ := by
  decide

/-- C4 (amended): any result of a successful first attempt — including
the empty string or a whitespace-only string — is returned directly as
the output, with exactly one attempt, no retry and no fallback; the loop
never inspects the content of a successful result. -/
theorem any_result_returned_unchecked (cfg : RetryCfg)
    (jsonErrCode : String → Option Int) (beh : Nat → CrewResult)
    (rand : Nat → ℚ) (s : String)
    (h0 : beh 0 = CrewResult.ok s) :
    run_crew_process cfg jsonErrCode beh rand = ⟨1, [], some s⟩ := by
  simp [run_crew_process, crewLoop, h0]

theorem any_result_returned_unchecked_witness :
    run_crew_process vertexCfg (fun _ => none)
        (fun _ => CrewResult.ok "   ") (fun _ => 0)
      = ⟨1, [], some "   "⟩ :=
  any_result_returned_unchecked vertexCfg (fun _ => none)
    (fun _ => CrewResult.ok "   ") (fun _ => 0) "   " rfl

/-! ## Blocking `get_message` as a transition system (C7)

The body of `MessageBroker.get_message` is

    while not self.messages:
        self.new_message_event.wait()
        self.new_message_event.clear()
    return self.messages.pop(0)

We model one consumer executing this call, interleaved with producers
calling `add_message`.  The consumer's program counter is `check` at the
top of the while loop, `waiting` inside `Event.wait()`, and `popped m`
once `messages.pop(0)` has returned `m`. -/

/-- Program counter of the consumer inside `get_message`. -/
inductive GmPC where
  | check : GmPC
  | waiting : GmPC
  | popped : String → GmPC
deriving DecidableEq, Repr

/-- Configuration: consumer pc, the broker's message list and the state
of `new_message_event`. -/
structure GmConfig where
  pc : GmPC
  msgs : List String
  ev : Bool
deriving DecidableEq, Repr

/-- Interleaved small-step semantics: a producer may `add` at any time
(append and set the event); the consumer at `check` pops the head if the
list is non-empty, or moves into `Event.wait()` if it is empty; `wait`
returns only once the event is set, whereupon the consumer clears it and
re-checks. -/
inductive GmStep : GmConfig → GmConfig → Prop where
  | add (c : GmConfig) (m : String) :
      GmStep c ⟨c.pc, c.msgs ++ [m], true⟩
  | pop (m : String) (rest : List String) (e : Bool) :
      GmStep ⟨GmPC.check, m :: rest, e⟩ ⟨GmPC.popped m, rest, e⟩
  | toWait (e : Bool) :
      GmStep ⟨GmPC.check, [], e⟩ ⟨GmPC.waiting, [], e⟩
  | wake (ms : List String) :
      GmStep ⟨GmPC.waiting, ms, true⟩ ⟨GmPC.check, ms, false⟩

/-- Returns `true` iff the consumer has already returned from `get_message`. -/
def GmPC.isPopped : GmPC → Bool
  | GmPC.popped _ => true
  | _ => false

lemma gm_inv_step (c c' : GmConfig) (h : GmStep c c')
    (hc : c.pc = GmPC.waiting → c.msgs ≠ [] → c.ev = true) :
    c'.pc = GmPC.waiting → c'.msgs ≠ [] → c'.ev = true := by
  cases h with
  | add c m => intro _ _; rfl
  | pop m rest e => intro hpc; cases hpc
  | toWait e => intro _ hne; cases hne rfl
  | wake ms => intro hpc; cases hpc

lemma gm_inv_reach (c0 c : GmConfig)
    (h : Relation.ReflTransGen GmStep c0 c) (h0 : c0.pc = GmPC.check) :
    c.pc = GmPC.waiting → c.msgs ≠ [] → c.ev = true := by
  induction h with
  | refl => intro hpc; rw [h0] at hpc; cases hpc
  | tail _ hstep ih => exact gm_inv_step _ _ hstep ih

/-- C7, for every configuration reachable from the start of a
`get_message` call (consumer at the top of the while loop):
1. a value is only ever returned by popping the head of a non-empty
   queue from the `check` state — never from an empty queue;
2. if the queue is non-empty at `check`, the pop (returning the oldest
   entry) is enabled immediately;
3. no missed wakeup: whenever the consumer is suspended in `wait()` and
   a message is pending, the event flag is set, so `wait` cannot block;
4. progress: from any reachable non-returned configuration with a
   pending message, the consumer alone reaches the returned state,
   obtaining the current head of the queue. -/
theorem get_message_blocking_pop (c0 c : GmConfig)
    (h0 : c0.pc = GmPC.check) (hreach : Relation.ReflTransGen GmStep c0 c) :
    (∀ (c' : GmConfig) (m : String), GmStep c c' → c.pc ≠ c'.pc →
       c'.pc = GmPC.popped m → c.pc = GmPC.check ∧ c.msgs = m :: c'.msgs)
    ∧ (∀ (m : String) (rest : List String), c.pc = GmPC.check →
       c.msgs = m :: rest → GmStep c ⟨GmPC.popped m, rest, c.ev⟩)
    ∧ (c.pc = GmPC.waiting → c.msgs ≠ [] → c.ev = true)
    ∧ (∀ (m : String) (rest : List String), c.msgs = m :: rest →
       c.pc.isPopped = false →
       ∃ e : Bool, Relation.ReflTransGen GmStep c ⟨GmPC.popped m, rest, e⟩) := by
  refine ⟨?_, ?_, gm_inv_reach c0 c hreach h0, ?_⟩
  · intro c' m hstep hne hpopped
    cases hstep with
    | add c m0 =>
      exact absurd rfl hne
    | pop m0 rest e =>
      cases hpopped
      exact ⟨rfl, rfl⟩
    | toWait e => cases hpopped
    | wake ms => cases hpopped
  · intro m rest hpc hmsgs
    cases c with
    | mk pc msgs ev =>
      cases hpc; cases hmsgs
      exact GmStep.pop m rest ev
  · intro m rest hmsgs hnp
    cases c with
    | mk pc msgs ev =>
      cases hmsgs
      cases pc with
      | check =>
        exact ⟨ev, Relation.ReflTransGen.single (GmStep.pop m rest ev)⟩
      | waiting =>
        have hev : ev = true :=
          gm_inv_reach c0 _ hreach h0 rfl (by simp)
        subst hev
        exact ⟨false,
          Relation.ReflTransGen.head (GmStep.wake (m :: rest))
            (Relation.ReflTransGen.single (GmStep.pop m rest false))⟩
      | popped s => cases hnp

theorem get_message_blocking_pop_witness :
    GmStep ⟨GmPC.check, ["hi"], false⟩ ⟨GmPC.popped "hi", [], false⟩ :=
  (get_message_blocking_pop ⟨GmPC.check, ["hi"], false⟩
      ⟨GmPC.check, ["hi"], false⟩ rfl Relation.ReflTransGen.refl).2.1
    "hi" [] rfl rfl
